import Mathlib

/-!
Verification development for the MPM core: background-grid cells, nodes,
particles and their mapping operators.  Definitions are shallow embeddings
of the C++ source (`cell.tcc` and companions); machine doubles are modelled
as exact rationals (and reals where the source takes square roots).
-/

namespace mpm

/-- Absolute tolerance used by `point_in_cell` for the area/volume
comparison (`1.0E-10` in `cell.tcc`). -/
def picTolerance : ℚ := 1 / 10000000000

/-- Two-dimensional coordinate vector (a node's fixed position). -/
structure Vec2 where
  x : ℚ
  y : ℚ
deriving DecidableEq, Repr

/-- Three-dimensional coordinate vector (a node's fixed position). -/
structure Vec3 where
  x : ℚ
  y : ℚ
  z : ℚ
deriving DecidableEq, Repr

/-- Componentwise difference of 3-vectors (Eigen `operator-`). -/
def Vec3.sub (a b : Vec3) : Vec3 :=
  ⟨a.x - b.x, a.y - b.y, a.z - b.z⟩

/-- Componentwise sum of 3-vectors (Eigen `operator+`). -/
def Vec3.add (a b : Vec3) : Vec3 :=
  ⟨a.x + b.x, a.y + b.y, a.z + b.z⟩

/-- Dot product of 3-vectors (Eigen `dot`). -/
def Vec3.dot (a b : Vec3) : ℚ :=
  a.x * b.x + a.y * b.y + a.z * b.z

/-- Cross product of 3-vectors (Eigen `cross`). -/
def Vec3.cross (a b : Vec3) : Vec3 :=
  ⟨a.y * b.z - a.z * b.y, a.z * b.x - a.x * b.z, a.x * b.y - a.y * b.x⟩

/-- Model of `std::fabs` on exact rationals. -/
def rabs (q : ℚ) : ℚ := if q < 0 then -q else q

/-- Determinant of a 3x3 matrix given row-major entries (Eigen
`determinant` on the matrix assembled in `Cell<2>::point_in_cell`). -/
def det3 (m11 m12 m13 m21 m22 m23 m31 m32 m33 : ℚ) : ℚ :=
  m11 * (m22 * m33 - m23 * m32) - m12 * (m21 * m33 - m23 * m31)
    + m13 * (m21 * m32 - m22 * m31)

/-- Loop body of `Cell<2>::point_in_cell` (cell.tcc lines 270-296).  For each
sub-triangle row `(i0, i1)` of `inhedron_indices()` the code reads the two
cell vertices `a`, `b` and assembles the 3x3 area matrix with rows
`(1, 1, 1)`, `(a(0), b(0), point(0))`, `(a(1), b(1), point(3))` — note the
source reads component `3` of the 2-component query point.  Out-of-range
component accesses (undefined behaviour in Eigen) are modelled as `none`. -/
def pointInCell₂Aux (nodes : List Vec2) (point : List ℚ) (volume : ℚ) :
    List (ℕ × ℕ) → ℚ → Option Bool
  | [], triareas =>
    some (if rabs (triareas - volume) < picTolerance then true else false)
  | (i0, i1) :: rest, triareas =>
    match nodes.get? i0, nodes.get? i1, point.get? 0, point.get? 3 with
    | some a, some b, some p0, some p3 =>
      let triarea : ℚ := (1 / 2) * rabs (det3 1 1 1 a.x b.x p0 a.y b.y p3)
      let acc := triareas + triarea
      if volume < acc ∧ picTolerance < rabs (acc - volume) then some false
      else pointInCell₂Aux nodes point volume rest acc
    | _, _, _, _ => none

/-- `Cell<2>::point_in_cell` (cell.tcc lines 250-298): sums the areas of the
sub-triangles given by `inhedron_indices()` and compares the total against
the cached cell volume within `picTolerance`, short-circuiting to `false`
once the partial sum exceeds the volume beyond the tolerance. -/
def pointInCell₂ (nodes : List Vec2) (indices : List (ℕ × ℕ)) (volume : ℚ)
    (point : List ℚ) : Option Bool :=
  pointInCell₂Aux nodes point volume indices 0

/-- Loop body of `Cell<3>::point_in_cell` (cell.tcc lines 323-342): for each
sub-tetrahedron row the code reads three cell vertices and accumulates
`(1/6) * |(a - p).dot((b - p).cross(c - p))|`. -/
def pointInCell₃Aux (nodes : List Vec3) (point : Vec3) (volume : ℚ) :
    List (ℕ × ℕ × ℕ) → ℚ → Option Bool
  | [], tetvolumes =>
    some (if rabs (tetvolumes - volume) < picTolerance then true else false)
  | (i0, i1, i2) :: rest, tetvolumes =>
    match nodes.get? i0, nodes.get? i1, nodes.get? i2 with
    | some a, some b, some c =>
      let tetvolume : ℚ :=
        (1 / 6) *
          rabs (Vec3.dot (a.sub point) (Vec3.cross (b.sub point) (c.sub point)))
      let acc := tetvolumes + tetvolume
      if volume < acc ∧ picTolerance < rabs (acc - volume) then some false
      else pointInCell₃Aux nodes point volume rest acc
    | _, _, _ => none

/-- `Cell<3>::point_in_cell` (cell.tcc lines 303-348). -/
def pointInCell₃ (nodes : List Vec3) (indices : List (ℕ × ℕ × ℕ))
    (volume : ℚ) (point : Vec3) : Option Bool :=
  pointInCell₃Aux nodes point volume indices 0

/-- Modelled from the spec: `inhedron_indices()` of the 4-node quadrilateral
shape function (the quadrilateral shape-function source file is not in the
repository snapshot).  Per the spec the cell is decomposed into
sub-triangles; each row pairs one cell edge with the query point, covering
the four edges of the quad with the node numbering of cell.tcc
(0 bottom-left, 1 bottom-right, 2 top-right, 3 top-left). -/
def quadInhedronIndices : List (ℕ × ℕ) :=
  [(0, 1), (1, 2), (2, 3), (3, 0)]

/-- Modelled from the spec: `inhedron_indices()` of the 8-node hexahedron
(`hex_shapefn.tcc` is not in the repository snapshot).  Per the spec the
cell is decomposed into sub-tetrahedra; each row is one triangle of the
hexahedron's surface (two per face), which together with the query point
forms a sub-tetrahedron.  Node numbering follows the particle test mesh:
nodes 0-3 are the bottom face, 4-7 the top face. -/
def hexInhedronIndices : List (ℕ × ℕ × ℕ) :=
  [(0, 1, 2), (0, 2, 3), (4, 5, 6), (4, 6, 7), (0, 1, 5), (0, 5, 4),
   (3, 2, 6), (3, 6, 7), (0, 3, 7), (0, 7, 4), (1, 2, 6), (1, 6, 5)]

/-- Modelled from the spec: `volume_indices()` of the 8-node hexahedron
(identity corner ordering; the shape-function implementation file is not in
the repository snapshot). -/
def hexVolumeIndices : List ℕ := [0, 1, 2, 3, 4, 5, 6, 7]

/-- Reference 4x4x4 hexahedral cell spanning (-2,-2,-2)-(2,2,2), node
numbering as in the particle test mesh (bottom face 0-3 counterclockwise,
top face 4-7). -/
def hexNodes : List Vec3 :=
  [⟨-2, -2, -2⟩, ⟨2, -2, -2⟩, ⟨2, 2, -2⟩, ⟨-2, 2, -2⟩,
   ⟨-2, -2, 2⟩, ⟨2, -2, 2⟩, ⟨2, 2, 2⟩, ⟨-2, 2, 2⟩]

/-- Reference 4x4 quadrilateral cell with corners at (±2, ±2), node
numbering as in the cell.tcc sketch (0 bottom-left, 1 bottom-right,
2 top-right, 3 top-left). -/
def squareNodes : List Vec2 :=
  [⟨-2, -2⟩, ⟨2, -2⟩, ⟨2, 2⟩, ⟨-2, 2⟩]

/-- `Cell<3>::compute_volume` (cell.tcc lines 195-245): closed-form
hexahedron volume as a sum of four scalar triple products over the corner
vertices `a..h` drawn from `volume_indices()`; fails (`none`, the source's
exception path) unless exactly 8 indices are supplied. -/
def computeVolume₃ (nodes : List Vec3) (indices : List ℕ) : Option ℚ :=
  if indices.length = 8 then do
    let a ← do let i ← indices.get? 7; nodes.get? i
    let b ← do let i ← indices.get? 6; nodes.get? i
    let c ← do let i ← indices.get? 2; nodes.get? i
    let d ← do let i ← indices.get? 3; nodes.get? i
    let e ← do let i ← indices.get? 4; nodes.get? i
    let f ← do let i ← indices.get? 5; nodes.get? i
    let g ← do let i ← indices.get? 1; nodes.get? i
    let h ← do let i ← indices.get? 0; nodes.get? i
    some ((1 / 12) *
        Vec3.dot (a.sub g)
          (Vec3.add (Vec3.add (Vec3.cross (b.sub d) (c.sub a))
              (Vec3.cross (e.sub b) (f.sub a)))
            (Vec3.cross (d.sub e) (h.sub a))) +
      (1 / 12) *
        Vec3.dot (b.sub g)
          (Vec3.add (Vec3.cross (b.sub d) (c.sub a))
            (Vec3.cross (c.sub g) (c.sub f))) +
      (1 / 12) *
        Vec3.dot (e.sub g)
          (Vec3.add (Vec3.cross (e.sub b) (f.sub a))
            (Vec3.cross (f.sub g) (h.sub f))) +
      (1 / 12) *
        Vec3.dot (d.sub g)
          (Vec3.add (Vec3.cross (d.sub e) (h.sub a))
            (Vec3.cross (h.sub g) (h.sub c))))
  else none

/-- Two-dimensional coordinate vector over the reals, for the 2D volume
formula which takes square roots of length computations. -/
structure Vec2R where
  x : ℝ
  y : ℝ

/-- Eigen `(u - v).norm()`: Euclidean distance of two 2D coordinates. -/
noncomputable def Vec2R.distTo (a b : Vec2R) : ℝ :=
  Real.sqrt ((a.x - b.x) ^ 2 + (a.y - b.y) ^ 2)

/-- `Cell<2>::compute_volume` (cell.tcc lines 144-190): the generalized
quadrilateral formula `0.25 * sqrt(4 p^2 q^2 - (a^2 + c^2 - b^2 - d^2)^2)`
built from the four side lengths `a, b, c, d` and the two diagonals
`p, q` of the vertices drawn from `volume_indices()`; fails (`none`, the
source's exception path) unless exactly 4 indices are supplied. -/
noncomputable def computeVolume₂ (nodes : List Vec2R) (indices : List ℕ) :
    Option ℝ :=
  if indices.length = 4 then do
    let n0 ← do let i ← indices.get? 0; nodes.get? i
    let n1 ← do let i ← indices.get? 1; nodes.get? i
    let n2 ← do let i ← indices.get? 2; nodes.get? i
    let n3 ← do let i ← indices.get? 3; nodes.get? i
    let a := n0.distTo n3
    let b := n2.distTo n3
    let c := n1.distTo n2
    let d := n0.distTo n1
    let p := n0.distTo n2
    let q := n1.distTo n3
    some ((1 / 4) *
      Real.sqrt (4 * p * p * q * q - (a * a + c * c - b * b - d * d) ^ 2))
  else none

/-- Modelled from the spec: `volume_indices()` of the 4-node quadrilateral
(identity corner ordering; the quadrilateral shape-function implementation
file is not in the repository snapshot). -/
def quadVolumeIndices : List ℕ := [0, 1, 2, 3]

/-- Reference 4x4 quadrilateral cell over the reals (corners at (±2, ±2)),
for `computeVolume₂`. -/
noncomputable def squareNodesR : List Vec2R :=
  [⟨-2, -2⟩, ⟨2, -2⟩, ⟨2, 2⟩, ⟨-2, 2⟩]

/-- Result of running a C++ constructor that may call `std::abort()`:
either the constructed value or process termination. -/
inductive CtorResult (α : Type) where
  | ok : α → CtorResult α
  | aborted : CtorResult α
deriving DecidableEq, Repr

/-- Shallow state of `mpm::Cell`: global id, node capacity, the local ids
already occupied in the node container, and the function count of the
assigned shape function (if any). -/
structure CellModel where
  id : ℕ
  nnodes : ℕ
  nodeIds : List ℕ
  nfunctions : Option ℕ
deriving DecidableEq, Repr

/-- `Cell<Tdim>::Cell(id, nnodes)` (cell.tcc lines 5-19): if the number of
nodes is not strictly greater than the dimension the constructor catches
its own exception and calls `std::abort()`, terminating the process. -/
def cellCtor (tdim : ℕ) (id : ℕ) (nnodes : ℕ) : CtorResult CellModel :=
  if nnodes > tdim then .ok ⟨id, nnodes, [], none⟩ else .aborted

/-- `Cell<Tdim>::Cell(id, nnodes, shapefnptr)` (cell.tcc lines 26-42):
delegates to the base constructor, then aborts the process if the shape
function supplies fewer functions than the cell has nodes. -/
def cellCtorShapefn (tdim : ℕ) (id : ℕ) (nnodes : ℕ) (nfunctions : ℕ) :
    CtorResult CellModel :=
  match cellCtor tdim id nnodes with
  | .aborted => .aborted
  | .ok c =>
    if nfunctions ≥ c.nnodes then .ok { c with nfunctions := some nfunctions }
    else .aborted

/-- `Cell<Tdim>::shapefn` (cell.tcc lines 47-63): assigning a shape function
with too few functions returns `false` and leaves the cell unchanged (the
exception is caught locally; no abort). -/
def CellModel.shapefn_assign (c : CellModel) (nfunctions : ℕ) :
    Bool × CellModel :=
  if nfunctions ≥ c.nnodes then
    (true, { c with nfunctions := some nfunctions })
  else (false, c)

/-- `Cell<Tdim>::add_node` (cell.tcc lines 70-89): insertion succeeds only
below capacity with an in-range local id; the keyed container refuses a
duplicate local id.  Failure returns `false` with the cell unchanged. -/
def CellModel.add_node (c : CellModel) (localId : ℕ) : Bool × CellModel :=
  if c.nodeIds.length < c.nnodes ∧ localId < c.nnodes then
    if localId ∈ c.nodeIds then (false, c)
    else (true, { c with nodeIds := c.nodeIds ++ [localId] })
  else (false, c)

/-- `Cell<Tdim>::add_particle_id` (cell.tcc lines 117-129): append the id
only when `std::find` does not locate it in the membership list. -/
def add_particle_id (particles : List ℕ) (id : ℕ) : Bool × List ℕ :=
  if id ∈ particles then (false, particles) else (true, particles ++ [id])

/-- `Cell<Tdim>::remove_particle_id` (cell.tcc lines 135-139): the
erase-remove idiom deletes every occurrence of the id. -/
def remove_particle_id (particles : List ℕ) (id : ℕ) : List ℕ :=
  particles.filter (fun x => x ≠ id)

/-- Dynamically sized rational matrix (Eigen `MatrixXd`), row-major data.
A default-constructed `MatrixXd` is the empty `0 x 0` matrix. -/
structure MatQ where
  rows : ℕ
  cols : ℕ
  data : List (List ℚ)
deriving DecidableEq, Repr

/-- Entry read of a `MatQ` (out-of-range reads return 0; they are never
exercised by in-range products). -/
def MatQ.entry (m : MatQ) (i j : ℕ) : ℚ :=
  (((m.data.get? i).getD []).get? j).getD 0

/-- Eigen matrix product: defined only when the inner dimensions agree;
a mismatched product is an Eigen assertion failure, modelled as `none`. -/
def MatQ.mul (a b : MatQ) : Option MatQ :=
  if a.cols = b.rows then
    some ⟨a.rows, b.cols,
      (List.range a.rows).map (fun i =>
        (List.range b.cols).map (fun j =>
          ((List.range a.cols).map (fun k => a.entry i k * b.entry k j)).sum))⟩
  else none

/-- Eigen scalar-matrix product. -/
def MatQ.smul (s : ℚ) (m : MatQ) : MatQ :=
  ⟨m.rows, m.cols, m.data.map (fun r => r.map (fun xq => s * xq))⟩

/-- Eigen `operator+=` on matrices: defined only for matching shapes. -/
def MatQ.add (a b : MatQ) : Option MatQ :=
  if a.rows = b.rows ∧ a.cols = b.cols then
    some ⟨a.rows, a.cols, List.zipWith (List.zipWith (· + ·)) a.data b.data⟩
  else none

/-- Eigen `pmass.asDiagonal()`: square diagonal matrix from a vector. -/
def MatQ.diagonal (v : List ℚ) : MatQ :=
  ⟨v.length, v.length,
    (List.range v.length).map (fun i =>
      (List.range v.length).map (fun j =>
        if i = j then (v.get? i).getD 0 else 0))⟩

/-- Loop of `Cell<Tdim>::assign_momentum_to_nodes` (cell.tcc lines 374-376):
for each local node `i`, `update_momentum(shapefns(i) * mass * pvelocity)`
adds the product onto the node's momentum accumulator.  A dimensionally
invalid product or accumulation (Eigen assertion / undefined behaviour)
is modelled as `none`. -/
def assignMomentumLoop (mass pvelocity : MatQ) :
    List (ℚ × MatQ) → Option (List MatQ)
  | [] => some []
  | (s, nodeMomentum) :: rest => do
    let contrib ← MatQ.mul (MatQ.smul s mass) pvelocity
    let updated ← MatQ.add nodeMomentum contrib
    let tail ← assignMomentumLoop mass pvelocity rest
    pure (updated :: tail)

/-- `Cell<Tdim>::assign_momentum_to_nodes` (cell.tcc lines 367-377): the
diagonal mass matrix is only assigned when `pmass.size() == pvelocity.cols()`;
otherwise `mass` keeps its default-constructed empty `0 x 0` value and the
node loop still runs with it. -/
def assign_momentum_to_nodes (shapefns : List ℚ) (nodeMomenta : List MatQ)
    (pmass : List ℚ) (pvelocity : MatQ) : Option (List MatQ) :=
  let mass : MatQ :=
    if pmass.length = pvelocity.cols then MatQ.diagonal pmass
    else ⟨0, 0, []⟩
  assignMomentumLoop mass pvelocity (shapefns.zip nodeMomenta)

/-- Modify the element at an index of a list in place, leaving the list
unchanged when the index is out of range (array element assignment). -/
def modifyAt {α : Type} : List α → ℕ → (α → α) → List α
  | [], _, _ => []
  | a :: rest, 0, f => f a :: rest
  | a :: rest, n + 1, f => a :: modifyAt rest n f

/-- Componentwise sum of two equal-length vectors (Eigen `operator+=`). -/
def vadd (a b : List ℚ) : List ℚ := List.zipWith (· + ·) a b

/-- Modelled from the spec: per-phase nodal accumulators of `mpm::Node`
(mass scalar; momentum, external force, internal force, acceleration and
the derived velocity as vectors of the node's degrees of freedom).  The
node implementation files (`node.h` / `node.tcc`) are not in the
repository snapshot; only their tests are. -/
structure NodePhase where
  mass : ℚ
  externalForce : List ℚ
  internalForce : List ℚ
  momentum : List ℚ
  acceleration : List ℚ
  velocity : List ℚ
deriving DecidableEq, Repr

/-- Modelled from the spec: a background-grid node with fixed degrees of
freedom and one accumulator record per phase. -/
structure Node where
  dof : ℕ
  phases : List NodePhase
deriving DecidableEq, Repr

/-- All-zero phase record used as the read default. -/
def NodePhase.zero : NodePhase := ⟨0, [], [], [], [], []⟩

/-- Read a node's phase record (phase indices are supplied in range by the
callers; the default is never exercised by the theorems below). -/
def Node.phaseAt (n : Node) (phase : ℕ) : NodePhase :=
  (n.phases.get? phase).getD NodePhase.zero

/-- Modelled from the spec: `Node::update_mass(additive, phase, mass)` — a
single primitive with two modes, accumulate onto the current value or
overwrite it. -/
def Node.update_mass (n : Node) (additive : Bool) (phase : ℕ) (m : ℚ) :
    Node :=
  ⟨n.dof, modifyAt n.phases phase (fun p =>
    { p with mass := if additive then p.mass + m else m })⟩

/-- Modelled from the spec: `Node::update_external_force` — validates that
the supplied vector's length equals the node's degrees of freedom; a
mismatch returns `false` without mutating state. -/
def Node.update_external_force (n : Node) (additive : Bool) (phase : ℕ)
    (force : List ℚ) : Bool × Node :=
  if force.length = n.dof then
    (true, ⟨n.dof, modifyAt n.phases phase (fun p =>
      { p with externalForce :=
          if additive then vadd p.externalForce force else force })⟩)
  else (false, n)

/-- Modelled from the spec: `Node::update_internal_force` — same validation
and two-mode update as the external force. -/
def Node.update_internal_force (n : Node) (additive : Bool) (phase : ℕ)
    (force : List ℚ) : Bool × Node :=
  if force.length = n.dof then
    (true, ⟨n.dof, modifyAt n.phases phase (fun p =>
      { p with internalForce :=
          if additive then vadd p.internalForce force else force })⟩)
  else (false, n)

/-- Modelled from the spec: `Node::update_momentum` — same validation and
two-mode update on the momentum accumulator. -/
def Node.update_momentum (n : Node) (additive : Bool) (phase : ℕ)
    (momentum : List ℚ) : Bool × Node :=
  if momentum.length = n.dof then
    (true, ⟨n.dof, modifyAt n.phases phase (fun p =>
      { p with momentum :=
          if additive then vadd p.momentum momentum else momentum })⟩)
  else (false, n)

/-- Modelled from the spec: `Node::update_acceleration` — same validation
and two-mode update on the acceleration accumulator. -/
def Node.update_acceleration (n : Node) (additive : Bool) (phase : ℕ)
    (acceleration : List ℚ) : Bool × Node :=
  if acceleration.length = n.dof then
    (true, ⟨n.dof, modifyAt n.phases phase (fun p =>
      { p with acceleration :=
          if additive then vadd p.acceleration acceleration else acceleration })⟩)
  else (false, n)

/-- Modelled from the spec: the small numerical threshold guarding the
division in `Node::compute_velocity`. -/
def velocityTolerance : ℚ := 1 / 10 ^ 15

/-- Modelled from the spec: per-phase body of `Node::compute_velocity` —
`velocity = momentum / mass` when the mass exceeds the threshold, else the
velocity is set to the zero vector. -/
def NodePhase.computeVelocity (p : NodePhase) : NodePhase :=
  if velocityTolerance < p.mass then
    { p with velocity := p.momentum.map (fun m => m / p.mass) }
  else
    { p with velocity := p.momentum.map (fun _ => 0) }

/-- Modelled from the spec: `Node::compute_velocity()` applies the per-phase
velocity derivation to every phase of the node. -/
def Node.compute_velocity (n : Node) : Node :=
  ⟨n.dof, n.phases.map NodePhase.computeVelocity⟩

/-- Modelled from the spec: per-phase state of `mpm::Particle` (mass,
6-component stress and strain, velocity / momentum / acceleration vectors
of the spatial dimension).  The particle implementation files are not in
the repository snapshot; only their tests are. -/
structure ParticlePhase where
  mass : ℚ
  stress : List ℚ
  strain : List ℚ
  velocity : List ℚ
  momentum : List ℚ
  acceleration : List ℚ
deriving DecidableEq, Repr

/-- Modelled from the spec: a material-point particle with identity,
spatial dimension, coordinates, active status and per-phase state. -/
structure Particle where
  id : ℕ
  dim : ℕ
  coords : List ℚ
  status : Bool
  phases : List ParticlePhase
deriving DecidableEq, Repr

/-- Modelled from the spec: `Particle::assign_velocity(phase, velocity)` —
fails (returning `false`, no mutation) when the vector length differs from
the spatial dimension. -/
def Particle.assign_velocity (p : Particle) (phase : ℕ)
    (velocity : List ℚ) : Bool × Particle :=
  if velocity.length = p.dim then
    (true, { p with phases := modifyAt p.phases phase (fun ph =>
      { ph with velocity := velocity }) })
  else (false, p)

/-- Modelled from the spec: `Particle::assign_momentum(phase, momentum)`. -/
def Particle.assign_momentum (p : Particle) (phase : ℕ)
    (momentum : List ℚ) : Bool × Particle :=
  if momentum.length = p.dim then
    (true, { p with phases := modifyAt p.phases phase (fun ph =>
      { ph with momentum := momentum }) })
  else (false, p)

/-- Modelled from the spec: `Particle::assign_acceleration(phase,
acceleration)`. -/
def Particle.assign_acceleration (p : Particle) (phase : ℕ)
    (acceleration : List ℚ) : Bool × Particle :=
  if acceleration.length = p.dim then
    (true, { p with phases := modifyAt p.phases phase (fun ph =>
      { ph with acceleration := acceleration }) })
  else (false, p)

/-- Modelled from the spec: the per-phase payload serialized by
`Particle::pack` — mass, the 6 stress components, the 6 strain components
and the velocity vector, flattened in that order. -/
def packPhase (ph : ParticlePhase) : List ℚ :=
  [ph.mass] ++ ph.stress ++ ph.strain ++ ph.velocity

/-- Modelled from the spec: the opaque buffer produced by `Particle::pack`
(the byte layout is an external collaborator's concern; the buffer is
modelled as the id, the status bit and the flattened numeric payload). -/
structure PackedBuffer where
  pid : ℕ
  pstatus : Bool
  payload : List ℚ
deriving DecidableEq, Repr

/-- Modelled from the spec: `Particle::pack()` serializes id, position,
stress, strain, velocity, mass and status into the buffer. -/
def Particle.pack (p : Particle) : PackedBuffer :=
  ⟨p.id, p.status, p.coords ++ (p.phases.map packPhase).flatten⟩

/-- Modelled from the spec: phase-list reconstruction of
`Particle::unpack` — each phase of the target particle has its packed
fields (mass, stress, strain, velocity) overwritten from the stream while
the unpacked fields are kept. -/
def unpackPhases (dim : ℕ) : List ParticlePhase → List ℚ → List ParticlePhase
  | [], _ => []
  | ph :: rest, l =>
    { ph with
      mass := l.headD 0
      stress := (l.drop 1).take 6
      strain := ((l.drop 1).drop 6).take 6
      velocity := (((l.drop 1).drop 6).drop 6).take dim } ::
      unpackPhases dim rest ((((l.drop 1).drop 6).drop 6).drop dim)

/-- Modelled from the spec: `Particle::unpack(buffer)` reconstructs id,
coordinates, status and the per-phase packed state from the buffer,
overwriting the target particle's previous values. -/
def Particle.unpack (p : Particle) (buf : PackedBuffer) : Particle :=
  { p with
    id := buf.pid
    status := buf.pstatus
    coords := buf.payload.take p.dim
    phases := unpackPhases p.dim p.phases (buf.payload.drop p.dim) }

/-- Well-formedness of a particle phase for a spatial dimension: the
6-component symmetric tensors and a dimension-length velocity. -/
def ParticlePhase.wf (dim : ℕ) (ph : ParticlePhase) : Prop :=
  ph.stress.length = 6 ∧ ph.strain.length = 6 ∧ ph.velocity.length = dim

instance (dim : ℕ) (ph : ParticlePhase) : Decidable (ph.wf dim) := by
  unfold ParticlePhase.wf; infer_instance

/-- One-dimensional single-phase node fixture with all accumulators zero,
as constructed at the start of the node tests. -/
def nodeFixture : Node :=
  ⟨1, [⟨0, [0], [0], [0], [0], [0]⟩]⟩

/-- Two-dimensional single-phase node fixture carrying momentum 10 per
component and mass 100, the state exercised by the compute-velocity test. -/
def velNodeFixture : Node :=
  ⟨2, [⟨100, [0, 0], [0, 0], [10, 10], [0, 0], [0, 0]⟩]⟩

/-- Three-dimensional single-phase particle fixture with distinct values in
every packed field, used to exercise the pack/unpack round-trip. -/
def packParticleFixture : Particle :=
  ⟨9000, 3, [0, 1, 2], true,
    [⟨(201 : ℚ) / 2, [1, 2, 3, 4, 5, 6], [7, 8, 9, 10, 11, 12],
      [13, 14, 15], [16, 17, 18], [19, 20, 21]⟩]⟩

/-- Target particle fixture overwritten by `unpack`, initially different
from `packParticleFixture` in every field. -/
def targetParticleFixture : Particle :=
  ⟨0, 3, [5, 5, 5], false,
    [⟨0, [0, 0, 0, 0, 0, 0], [0, 0, 0, 0, 0, 0],
      [0, 0, 0], [0, 0, 0], [0, 0, 0]⟩]⟩

/-- Three-dimensional single-phase particle fixture with zeroed state, as
constructed at the start of the particle property tests. -/
def particleFixture : Particle :=
  ⟨0, 3, [0, 0, 0], true,
    [⟨0, [0, 0, 0, 0, 0, 0], [0, 0, 0, 0, 0, 0],
      [0, 0, 0], [0, 0, 0], [0, 0, 0]⟩]⟩

/-- Empty four-node cell fixture (id 0, capacity 4, no nodes attached, no
shape function). -/
def cellFixture : CellModel := ⟨0, 4, [], none⟩

end mpm

namespace mpm

theorem modifyAt_getElem? {α : Type} (l : List α) (i : ℕ) (f : α → α) :
    (modifyAt l i f)[i]? = l[i]?.map f := by
  induction l generalizing i with
  | nil => simp [modifyAt]
  | cons a rest ih =>
    cases i with
    | zero => simp [modifyAt]
    | succ n => simpa [modifyAt] using ih n

theorem modifyAt_length {α : Type} (l : List α) (i : ℕ) (f : α → α) :
    (modifyAt l i f).length = l.length := by
  induction l generalizing i with
  | nil => simp [modifyAt]
  | cons a rest ih =>
    cases i with
    | zero => simp [modifyAt]
    | succ n => simpa [modifyAt] using ih n

/-- C10: a cell's particle-id membership list never contains duplicates:
`add_particle_id` appends the id and returns `true` exactly when the id is
absent, returns `false` leaving the membership unchanged when present, and
preserves the no-duplicates invariant; `remove_particle_id` removes every
occurrence of the id and also preserves the invariant. -/
theorem add_remove_particle_id_spec (l : List ℕ) (id : ℕ) :
    ((add_particle_id l id).1 = true ↔ id ∉ l)
    ∧ (id ∈ l → add_particle_id l id = (false, l))
    ∧ (id ∉ l → add_particle_id l id = (true, l ++ [id]))
    ∧ (l.Nodup → ((add_particle_id l id).2).Nodup)
    ∧ id ∉ remove_particle_id l id
    ∧ (l.Nodup → (remove_particle_id l id).Nodup) := by
  unfold add_particle_id remove_particle_id
  by_cases h : id ∈ l
  · refine ⟨by simp [h], fun _ => by simp [h], fun hc => absurd h hc,
      fun hnd => by simpa [h] using hnd, by simp, fun hnd => hnd.filter _⟩
  · refine ⟨by simp [h], fun hc => absurd hc h, fun _ => by simp [h],
      fun hnd => ?_, by simp, fun hnd => hnd.filter _⟩
    simp only [h, if_false]
    rw [List.nodup_append]
    exact ⟨hnd, List.nodup_singleton id, List.disjoint_singleton.mpr h⟩

/-- Witness for C10 at a concrete membership list. -/
theorem add_remove_particle_id_spec_witness :
    add_particle_id [1, 2] 2 = (false, [1, 2])
    ∧ (remove_particle_id [1, 2] 2).Nodup :=
  ⟨(add_remove_particle_id_spec [1, 2] 2).2.1 (by decide),
    (add_remove_particle_id_spec [1, 2] 2).2.2.2.2.2 (by decide)⟩

/-- C1: in `Cell<2>::point_in_cell` the sub-triangle area matrix reads
component 3 of the 2-component query point, so for every two-component
query point the area computation performs an out-of-bounds access (modelled
as `none`): the claim that every query-point index is strictly below 2 is
violated by the code. -/
theorem point_in_cell2_out_of_bounds_read (p0 p1 : ℚ) :
    pointInCell₂ squareNodes quadInhedronIndices 16 [p0, p1] = none := by
  simp [pointInCell₂, pointInCell₂Aux, quadInhedronIndices, squareNodes]

/-- C3: on the reference cells, `point_in_cell` answers correctly for the
3D hexahedron (centroid inside, far point outside, against the cached
volume 64), but the 2D quadrilateral query at the centroid aborts on the
out-of-bounds read of the query point's component 3 instead of returning
`true`. -/
theorem point_in_cell_reference_cells :
    pointInCell₃ hexNodes hexInhedronIndices 64 ⟨0, 0, 0⟩ = some true
    ∧ pointInCell₃ hexNodes hexInhedronIndices 64 ⟨10, 10, 10⟩ = some false
    ∧ computeVolume₃ hexNodes hexVolumeIndices = some 64
    ∧ pointInCell₂ squareNodes quadInhedronIndices 16 [0, 0] = none := by
  refine ⟨?_, ?_, ?_, ?_⟩
  · norm_num [pointInCell₃, pointInCell₃Aux, hexInhedronIndices, hexNodes,
      Vec3.sub, Vec3.dot, Vec3.cross, picTolerance, rabs]
  · norm_num [pointInCell₃, pointInCell₃Aux, hexInhedronIndices, hexNodes,
      Vec3.sub, Vec3.dot, Vec3.cross, picTolerance, rabs]
  · norm_num [computeVolume₃, hexNodes, hexVolumeIndices,
      Vec3.sub, Vec3.add, Vec3.dot, Vec3.cross]
  · simp [pointInCell₂, pointInCell₂Aux, quadInhedronIndices, squareNodes]

/-- C5: calling `Cell::assign_momentum_to_nodes` with a particle mass
vector of length 1 against a velocity matrix with 2 columns leaves the
`mass` matrix default-constructed (0 x 0), and the node loop then evaluates
the dimensionally invalid product `shapefns(i) * mass * pvelocity` (an
Eigen assertion failure / undefined behaviour, modelled as `none`) instead
of returning a failure with the nodes untouched. -/
theorem assign_momentum_mismatch_aborts :
    assign_momentum_to_nodes [1 / 4, 1 / 4, 1 / 4, 1 / 4]
      [⟨2, 1, [[0], [0]]⟩, ⟨2, 1, [[0], [0]]⟩,
        ⟨2, 1, [[0], [0]]⟩, ⟨2, 1, [[0], [0]]⟩]
      [1] ⟨2, 2, [[1, 2], [3, 4]]⟩ = none := by
  decide

/-- C2 counterexample: the Cell constructor with id 0 and 2 nodes in two
dimensions fails its validation (the node count must strictly exceed the
dimension) and calls `std::abort()`, terminating the process — so it is
not the case that no validating operation terminates the process on a
local validation failure. -/
theorem cell_ctor_aborts_counterexample :
    cellCtor 2 0 2 = CtorResult.aborted := by
  decide

/-- C2 amended: the two Cell constructors abort the process exactly when
the configuration is invalid (node count at most the dimension, or fewer
shape functions than nodes), while the post-construction validating
operations `shapefn` and `add_node` signal failure through their `false`
return value and leave the cell unchanged. -/
theorem cell_validation_failure_modes (tdim id nnodes nf localId : ℕ)
    (c : CellModel) :
    (cellCtor tdim id nnodes = CtorResult.aborted ↔ nnodes ≤ tdim)
    ∧ (cellCtorShapefn tdim id nnodes nf = CtorResult.aborted ↔
        (nnodes ≤ tdim ∨ nf < nnodes))
    ∧ (nf < c.nnodes → c.shapefn_assign nf = (false, c))
    ∧ ((c.add_node localId).1 = false → (c.add_node localId).2 = c) := by
  refine ⟨?_, ?_, ?_, ?_⟩
  · unfold cellCtor
    by_cases h : nnodes > tdim <;> simp [h]
    omega
  · unfold cellCtorShapefn cellCtor
    by_cases h : nnodes > tdim
    · by_cases h2 : nf ≥ nnodes <;> simp [h, h2]
      omega
    · simp [h]; omega
  · intro h
    unfold CellModel.shapefn_assign
    simp [Nat.not_le.mpr h]
  · intro h
    unfold CellModel.add_node at h ⊢
    by_cases h1 : c.nodeIds.length < c.nnodes ∧ localId < c.nnodes
    · by_cases h2 : localId ∈ c.nodeIds <;> simp [h1, h2] at h ⊢
    · simp [h1]

/-- Witness for C2's amended claim at concrete inputs: a shape function
with 3 functions on a 4-node cell aborts the constructor but merely fails
the post-construction assignment, and an out-of-range local id leaves the
cell unchanged. -/
theorem cell_validation_failure_modes_witness :
    cellCtorShapefn 2 0 4 3 = CtorResult.aborted
    ∧ cellFixture.shapefn_assign 3 = (false, cellFixture)
    ∧ (cellFixture.add_node 9).2 = cellFixture :=
  ⟨(cell_validation_failure_modes 2 0 4 3 9 cellFixture).2.1.mpr
      (Or.inr (by decide)),
    (cell_validation_failure_modes 2 0 4 3 9 cellFixture).2.2.1 (by decide),
    (cell_validation_failure_modes 2 0 4 3 9 cellFixture).2.2.2 (by decide)⟩

/-- C4: every vector-valued Node `update_*` and Particle `assign_*`
operation returns failure (`false`) and leaves the entity unchanged — so
the previously stored value is unchanged when re-read — whenever the
supplied vector's length differs from the expected degrees of freedom, and
returns `true` when the length matches. -/
theorem update_assign_dimension_mismatch (n : Node) (p : Particle)
    (additive : Bool) (phase : ℕ) (v : List ℚ) :
    ((v.length ≠ n.dof → n.update_external_force additive phase v = (false, n))
      ∧ (v.length = n.dof → (n.update_external_force additive phase v).1 = true))
    ∧ ((v.length ≠ n.dof → n.update_internal_force additive phase v = (false, n))
      ∧ (v.length = n.dof → (n.update_internal_force additive phase v).1 = true))
    ∧ ((v.length ≠ n.dof → n.update_momentum additive phase v = (false, n))
      ∧ (v.length = n.dof → (n.update_momentum additive phase v).1 = true))
    ∧ ((v.length ≠ n.dof → n.update_acceleration additive phase v = (false, n))
      ∧ (v.length = n.dof → (n.update_acceleration additive phase v).1 = true))
    ∧ ((v.length ≠ p.dim → p.assign_velocity phase v = (false, p))
      ∧ (v.length = p.dim → (p.assign_velocity phase v).1 = true))
    ∧ ((v.length ≠ p.dim → p.assign_momentum phase v = (false, p))
      ∧ (v.length = p.dim → (p.assign_momentum phase v).1 = true))
    ∧ ((v.length ≠ p.dim → p.assign_acceleration phase v = (false, p))
      ∧ (v.length = p.dim → (p.assign_acceleration phase v).1 = true)) := by
  refine ⟨⟨?_, ?_⟩, ⟨?_, ?_⟩, ⟨?_, ?_⟩, ⟨?_, ?_⟩, ⟨?_, ?_⟩, ⟨?_, ?_⟩, ⟨?_, ?_⟩⟩ <;>
    intro h <;>
    simp [Node.update_external_force, Node.update_internal_force,
      Node.update_momentum, Node.update_acceleration,
      Particle.assign_velocity, Particle.assign_momentum,
      Particle.assign_acceleration, h]

/-- Witness for C4 at concrete inputs: a 2-component vector against the
1-dof node fails without mutation, a 1-component vector succeeds; a
2-component vector against the 3-dimensional particle fails without
mutation, a 3-component vector succeeds. -/
theorem update_assign_dimension_mismatch_witness :
    nodeFixture.update_external_force true 0 [10, 10] = (false, nodeFixture)
    ∧ (nodeFixture.update_momentum true 0 [10]).1 = true
    ∧ particleFixture.assign_velocity 0 [1, 2] = (false, particleFixture)
    ∧ (particleFixture.assign_momentum 0 [1, 2, 3]).1 = true :=
  ⟨(update_assign_dimension_mismatch nodeFixture particleFixture true 0
      [10, 10]).1.1 (by decide),
    (update_assign_dimension_mismatch nodeFixture particleFixture true 0
      [10]).2.2.1.2 (by decide),
    (update_assign_dimension_mismatch nodeFixture particleFixture true 0
      [1, 2]).2.2.2.2.1.1 (by decide),
    (update_assign_dimension_mismatch nodeFixture particleFixture true 0
      [1, 2, 3]).2.2.2.2.2.1.2 (by decide)⟩

/-- C7: every Node `update_*` primitive (mass, momentum, external force,
internal force, acceleration) has exactly two modes selected by its boolean
flag — with `additive = true` the supplied value is accumulated onto the
current value, with `additive = false` it overwrites the current value —
and concretely, starting from mass 0, two additive updates of 100.5 yield
201 and a subsequent assign of 100 yields exactly 100. -/
theorem update_mass_two_modes (n : Node) (phase : ℕ) (m : ℚ) (v : List ℚ)
    (h : phase < n.phases.length) (hv : v.length = n.dof) :
    ((n.update_mass true phase m).phaseAt phase).mass
        = (n.phaseAt phase).mass + m
    ∧ ((n.update_mass false phase m).phaseAt phase).mass = m
    ∧ ((n.update_momentum true phase v).2.phaseAt phase).momentum
        = vadd (n.phaseAt phase).momentum v
    ∧ ((n.update_momentum false phase v).2.phaseAt phase).momentum = v
    ∧ ((n.update_external_force true phase v).2.phaseAt phase).externalForce
        = vadd (n.phaseAt phase).externalForce v
    ∧ ((n.update_external_force false phase v).2.phaseAt phase).externalForce
        = v
    ∧ ((n.update_internal_force true phase v).2.phaseAt phase).internalForce
        = vadd (n.phaseAt phase).internalForce v
    ∧ ((n.update_internal_force false phase v).2.phaseAt phase).internalForce
        = v
    ∧ ((n.update_acceleration true phase v).2.phaseAt phase).acceleration
        = vadd (n.phaseAt phase).acceleration v
    ∧ ((n.update_acceleration false phase v).2.phaseAt phase).acceleration = v
    ∧ (((nodeFixture.update_mass true 0 (201 / 2)).update_mass true 0
          (201 / 2)).phaseAt 0).mass = 201
    ∧ ((((nodeFixture.update_mass true 0 (201 / 2)).update_mass true 0
          (201 / 2)).update_mass false 0 100).phaseAt 0).mass = 100 := by
  have hph := List.getElem?_eq_getElem h
  refine ⟨?_, ?_, ?_, ?_, ?_, ?_, ?_, ?_, ?_, ?_, ?_, ?_⟩
  · simp [Node.update_mass, Node.phaseAt, modifyAt_getElem?, hph]
  · simp [Node.update_mass, Node.phaseAt, modifyAt_getElem?, hph]
  · simp [Node.update_momentum, hv, Node.phaseAt, modifyAt_getElem?, hph]
  · simp [Node.update_momentum, hv, Node.phaseAt, modifyAt_getElem?, hph]
  · simp [Node.update_external_force, hv, Node.phaseAt, modifyAt_getElem?, hph]
  · simp [Node.update_external_force, hv, Node.phaseAt, modifyAt_getElem?, hph]
  · simp [Node.update_internal_force, hv, Node.phaseAt, modifyAt_getElem?, hph]
  · simp [Node.update_internal_force, hv, Node.phaseAt, modifyAt_getElem?, hph]
  · simp [Node.update_acceleration, hv, Node.phaseAt, modifyAt_getElem?, hph]
  · simp [Node.update_acceleration, hv, Node.phaseAt, modifyAt_getElem?, hph]
  · norm_num [Node.update_mass, Node.phaseAt, nodeFixture, modifyAt]
  · norm_num [Node.update_mass, Node.phaseAt, nodeFixture, modifyAt]

/-- Witness for C7 at the concrete zero-state node fixture, exercising the
additive mode of the scalar mass update and of a vector update. -/
theorem update_mass_two_modes_witness :
    0 < nodeFixture.phases.length
    ∧ [(10 : ℚ)].length = nodeFixture.dof
    ∧ ((nodeFixture.update_mass true 0 100).phaseAt 0).mass
        = (nodeFixture.phaseAt 0).mass + 100
    ∧ ((nodeFixture.update_momentum true 0 [10]).2.phaseAt 0).momentum
        = vadd (nodeFixture.phaseAt 0).momentum [10] :=
  ⟨by decide, by decide,
    (update_mass_two_modes nodeFixture 0 100 [10] (by decide) (by decide)).1,
    (update_mass_two_modes nodeFixture 0 100 [10] (by decide)
      (by decide)).2.2.1⟩

/-- C8: `Node::compute_velocity` sets, per phase, velocity to
momentum divided by mass when the phase's mass exceeds the numerical
threshold and to the zero vector otherwise, and concretely with every
momentum component 10 and mass 100 each velocity component equals 0.1. -/
theorem compute_velocity_spec (n : Node) (phase : ℕ)
    (h : phase < n.phases.length) :
    (velocityTolerance < (n.phaseAt phase).mass →
      (n.compute_velocity.phaseAt phase).velocity
        = (n.phaseAt phase).momentum.map
            (fun mom => mom / (n.phaseAt phase).mass))
    ∧ ((n.phaseAt phase).mass ≤ velocityTolerance →
      (n.compute_velocity.phaseAt phase).velocity
        = (n.phaseAt phase).momentum.map (fun _ => 0))
    ∧ (velNodeFixture.compute_velocity.phaseAt 0).velocity
        = [1 / 10, 1 / 10] := by
  have hph := List.getElem?_eq_getElem h
  refine ⟨?_, ?_, ?_⟩
  · intro hm
    simp only [Node.phaseAt, List.get?_eq_getElem?, hph, Option.getD_some] at hm
    simp [Node.compute_velocity, Node.phaseAt, hph, NodePhase.computeVelocity]
    rw [if_pos hm]
  · intro hm
    simp only [Node.phaseAt, List.get?_eq_getElem?, hph, Option.getD_some] at hm
    simp [Node.compute_velocity, Node.phaseAt, hph, NodePhase.computeVelocity]
    rw [if_neg (not_lt.mpr hm)]
  · norm_num [velNodeFixture, Node.compute_velocity, Node.phaseAt,
      NodePhase.computeVelocity, velocityTolerance]

/-- C6: `compute_volume` yields the analytically known measure on the
axis-aligned reference cells: the 4x4 square quadrilateral spanning
(-2,-2)-(2,2) gets volume 16 from the side/diagonal formula
`0.25 * sqrt(4 p^2 q^2 - (a^2 + c^2 - b^2 - d^2)^2)`, and the 8-node
hexahedron spanning (-2,-2,-2)-(2,2,2) gets volume 64 from the closed-form
corner-vertex decomposition. -/
theorem compute_volume_reference_values :
    computeVolume₂ squareNodesR quadVolumeIndices = some 16
    ∧ computeVolume₃ hexNodes hexVolumeIndices = some 64 := by
  constructor
  · have h16 : Real.sqrt 16 = 4 := by
      rw [show (16 : ℝ) = 4 ^ 2 by norm_num]
      exact Real.sqrt_sq (by norm_num)
    have h32 : Real.sqrt 32 * Real.sqrt 32 = 32 :=
      Real.mul_self_sqrt (by norm_num)
    simp only [computeVolume₂, squareNodesR, quadVolumeIndices, Vec2R.distTo]
    norm_num [h16]
    have hss : Real.sqrt (Real.sqrt 32) * Real.sqrt (Real.sqrt 32)
        = Real.sqrt 32 :=
      Real.mul_self_sqrt (Real.sqrt_nonneg 32)
    have h2 : Real.sqrt 4 = 2 := by
      rw [show (4 : ℝ) = 2 ^ 2 by norm_num]
      exact Real.sqrt_sq (by norm_num)
    rw [show Real.sqrt 4 * Real.sqrt (Real.sqrt 32) * Real.sqrt (Real.sqrt 32) *
        Real.sqrt (Real.sqrt 32) * Real.sqrt (Real.sqrt 32)
        = Real.sqrt 4 * ((Real.sqrt (Real.sqrt 32) * Real.sqrt (Real.sqrt 32)) *
          (Real.sqrt (Real.sqrt 32) * Real.sqrt (Real.sqrt 32))) by ring,
      hss, h32, h2]
    norm_num
  · norm_num [computeVolume₃, hexNodes, hexVolumeIndices,
      Vec3.sub, Vec3.add, Vec3.dot, Vec3.cross]

/-- Witness for C8 at the concrete node fixture with momentum 10 and mass
100 per phase. -/
theorem compute_velocity_spec_witness :
    0 < velNodeFixture.phases.length
    ∧ velocityTolerance < (velNodeFixture.phaseAt 0).mass
    ∧ (velNodeFixture.compute_velocity.phaseAt 0).velocity
        = (velNodeFixture.phaseAt 0).momentum.map
            (fun mom => mom / (velNodeFixture.phaseAt 0).mass) :=
  ⟨by decide, by norm_num [velNodeFixture, Node.phaseAt, velocityTolerance],
    (compute_velocity_spec velNodeFixture 0 (by decide)).1
      (by norm_num [velNodeFixture, Node.phaseAt, velocityTolerance])⟩


theorem unpackPhases_pack (dim : ℕ) (ps qs : List ParticlePhase)
    (tail : List ℚ) (hlen : qs.length = ps.length)
    (hwf : ∀ ph ∈ ps, ph.wf dim) :
    (unpackPhases dim qs ((ps.map packPhase).flatten ++ tail)).map
        (fun ph => (ph.mass, ph.stress, ph.strain, ph.velocity))
      = ps.map (fun ph => (ph.mass, ph.stress, ph.strain, ph.velocity)) := by
  induction ps generalizing qs tail with
  | nil =>
    cases qs with
    | nil => simp [unpackPhases]
    | cons qh qrest => simp at hlen
  | cons ph rest ih =>
    cases qs with
    | nil => simp at hlen
    | cons qh qrest =>
      obtain ⟨hs, ht, hv⟩ := hwf ph (by simp)
      have hwf2 : ∀ ph2 ∈ rest, ph2.wf dim := fun ph2 h2 => hwf ph2 (by simp [h2])
      have hlen2 : qrest.length = rest.length := by simpa using hlen
      rw [List.map_cons, List.flatten_cons, List.append_assoc,
        show packPhase ph ++ ((rest.map packPhase).flatten ++ tail)
            = ph.mass :: (ph.stress ++ (ph.strain ++ (ph.velocity ++
                ((rest.map packPhase).flatten ++ tail)))) by
          simp [packPhase]]
      rw [show unpackPhases dim (qh :: qrest)
            (ph.mass :: (ph.stress ++ (ph.strain ++ (ph.velocity ++
              ((rest.map packPhase).flatten ++ tail)))))
          = ⟨ph.mass, ph.stress, ph.strain, ph.velocity,
              qh.momentum, qh.acceleration⟩ ::
            unpackPhases dim qrest ((rest.map packPhase).flatten ++ tail) by
        simp [unpackPhases, List.take_left' hs, List.drop_left' hs,
          List.take_left' ht, List.drop_left' ht,
          List.take_left' hv, List.drop_left' hv]]
      simp only [List.map_cons]
      exact congrArg _ (ih qrest tail hlen2 hwf2)

/-- C9: unpacking the buffer produced by `pack` into another particle of
the same layout reproduces the original particle's id, coordinates, status
and every packed per-phase field (mass, stress, strain, velocity) exactly
(hence within any floating-point tolerance), overwriting the target
particle's previous values. -/
theorem pack_unpack_roundtrip (p q : Particle)
    (hdim : q.dim = p.dim) (hcoords : p.coords.length = p.dim)
    (hlen : q.phases.length = p.phases.length)
    (hwf : ∀ ph ∈ p.phases, ph.wf p.dim) :
    (q.unpack p.pack).id = p.id
    ∧ (q.unpack p.pack).status = p.status
    ∧ (q.unpack p.pack).coords = p.coords
    ∧ (q.unpack p.pack).phases.map
        (fun ph => (ph.mass, ph.stress, ph.strain, ph.velocity))
      = p.phases.map
          (fun ph => (ph.mass, ph.stress, ph.strain, ph.velocity)) := by
  refine ⟨rfl, rfl, ?_, ?_⟩
  · simp [Particle.unpack, Particle.pack, hdim, List.take_left' hcoords]
  · simp only [Particle.unpack, Particle.pack, hdim]
    rw [List.drop_left' hcoords]
    have h := unpackPhases_pack p.dim p.phases q.phases [] hlen hwf
    simpa using h

/-- Witness for C9 at concrete three-dimensional single-phase particles:
the target particle, initially different in every field, carries the
packed particle's id, coordinates and per-phase state after `unpack`. -/
theorem pack_unpack_roundtrip_witness :
    targetParticleFixture.dim = packParticleFixture.dim
    ∧ (targetParticleFixture.unpack packParticleFixture.pack).id
        = packParticleFixture.id
    ∧ (targetParticleFixture.unpack packParticleFixture.pack).coords
        = packParticleFixture.coords
    ∧ (targetParticleFixture.unpack packParticleFixture.pack).phases.map
        (fun ph => (ph.mass, ph.stress, ph.strain, ph.velocity))
      = packParticleFixture.phases.map
          (fun ph => (ph.mass, ph.stress, ph.strain, ph.velocity)) :=
  ⟨by decide,
    (pack_unpack_roundtrip packParticleFixture targetParticleFixture
      (by decide) (by decide) (by decide) (by decide)).1,
    (pack_unpack_roundtrip packParticleFixture targetParticleFixture
      (by decide) (by decide) (by decide) (by decide)).2.2.1,
    (pack_unpack_roundtrip packParticleFixture targetParticleFixture
      (by decide) (by decide) (by decide) (by decide)).2.2.2⟩

end mpm
